import Mathlib

/-!
Verification of the ipwatcher daemon's core logic: the DNS record
reconciler (`EnsureDNSRecords` and its helpers in
internal/dnsmanager/dnsmanager.go), the zone resolver with its cache
(`GetZoneIDByName`, `getZoneID`), the multi-domain sweep
(`updateAllDNSRecords` / `verifyDNSRecords`), the IP monitor
(`checkAndUpdateIP`) and the public-IP lookup (`fetchIP`), shallowly
embedded as pure Lean functions.  Provider calls and HTTP responses are
passed in as explicit values (the result the Go code would receive from
the network), and the sequence of provider calls a function issues is
returned as an explicit trace.
-/

namespace IPWatcher

/-- `DNSRecord` from dnsmanager.go: a desired record. `type` (the Go
`Type DNSRecordType`) is kept as a string, exactly as in the source,
where `DNSRecordType` is a string type with constants "A" and "AAAA". -/
structure DNSRecord where
  root : String
  name : String
  rtype : String
  proxied : Bool
deriving DecidableEq, Repr

/-- The constant `ARecord DNSRecordType = "A"`. -/
def ARecord : String := "A"

/-- The constant `AAAARecord DNSRecordType = "AAAA"`. -/
def AAAARecord : String := "AAAA"

/-- A provider-reported record (`dns.RecordResponse` as used by the code):
opaque id, full name, record type, content, proxied flag. -/
structure RecordResponse where
  id : String
  name : String
  rtype : String
  content : String
  proxied : Bool
deriving DecidableEq, Repr

/-- `UpdateDNSRecord` from dnsmanager.go: a desired record paired with the
provider ID of the existing record it updates. -/
structure UpdateDNSRecord where
  id : String
  toRecord : DNSRecord
deriving DecidableEq, Repr

/-- `prepareRecordKey` from dnsmanager.go: the reconciliation key of a
desired record, `fqdn ++ "|" ++ type` where fqdn is `root` for name "@"
and `name ++ "." ++ root` otherwise. -/
def prepareRecordKey (record : DNSRecord) : String :=
  let name := if record.name = "@" then record.root else record.name ++ "." ++ record.root
  name ++ "|" ++ record.rtype

/-- The key under which `EnsureDNSRecords` indexes an existing provider
record: `rec.Name ++ "|" ++ string(rec.Type)`. -/
def responseKey (rec : RecordResponse) : String :=
  rec.name ++ "|" ++ rec.rtype

/-- Go map semantics for the `existingRecordMap`: entries are inserted in
list order and a later insert for the same key overwrites an earlier one,
so a lookup returns the LAST matching entry. -/
def mapFind (entries : List (String × RecordResponse)) (k : String) :
    Option RecordResponse :=
  (entries.reverse.find? (fun p => p.1 = k)).map (·.2)

/-- The `existingRecordMap` built by `EnsureDNSRecords`: every existing
record whose type is A or AAAA, keyed by `name|type` (insertion order =
provider response order). -/
def buildExistingMap (existing : List RecordResponse) :
    List (String × RecordResponse) :=
  (existing.filter (fun rec => rec.rtype = ARecord ∨ rec.rtype = AAAARecord)).map
    (fun rec => (responseKey rec, rec))

/-- The `expectedContent` computed inside `EnsureDNSRecords`: the relevant
IP for the record's type ("" for any other type, the Go zero value). -/
def expectedContent (record : DNSRecord) (ipv4 ipv6 : String) : String :=
  if record.rtype = ARecord then ipv4
  else if record.rtype = AAAARecord then ipv6
  else ""

/-- The diffing loop of `EnsureDNSRecords` (dnsmanager.go lines 221-249):
returns `(recordsToCreate, recordsToUpdate)` in the order the Go loop
appends them.  A record of type A is skipped when `ipv4 = ""`, of type
AAAA when `ipv6 = ""`; otherwise its key is looked up in the existingmap:
absent → create; present with differing content or proxied → update
(carrying the existing record's ID); present and matching → nothing. -/
def ensureBatches (existingMap : List (String × RecordResponse))
    (ipv4 ipv6 : String) :
    List DNSRecord → List DNSRecord × List UpdateDNSRecord
  | [] => ([], [])
  | record :: rest =>
    let acc := ensureBatches existingMap ipv4 ipv6 rest
    if record.rtype = ARecord ∧ ipv4 = "" then acc
    else if record.rtype = AAAARecord ∧ ipv6 = "" then acc
    else
      match mapFind existingMap (prepareRecordKey record) with
      | none => (record :: acc.1, acc.2)
      | some existingRec =>
        if existingRec.content ≠ expectedContent record ipv4 ipv6 ∨
            existingRec.proxied ≠ record.proxied then
          (acc.1, ⟨existingRec.id, record⟩ :: acc.2)
        else acc

/-- A record parameter in a batch write (`dns.ARecordParam` /
`dns.AAAARecordParam`): name (the desired record's relative name), type,
content, proxied; TTL is the constant auto TTL 1 in the source and is
modelled by `ttl`. -/
structure RecordParam where
  name : String
  rtype : String
  content : String
  proxied : Bool
  ttl : Nat
deriving DecidableEq, Repr

/-- `toDNSARecord` from dnsmanager.go. -/
def toDNSARecord (record : DNSRecord) (ipv4 : String) : RecordParam :=
  ⟨record.name, ARecord, ipv4, record.proxied, 1⟩

/-- `toDNSAAAARecord` from dnsmanager.go. -/
def toDNSAAAARecord (record : DNSRecord) (ipv6 : String) : RecordParam :=
  ⟨record.name, AAAARecord, ipv6, record.proxied, 1⟩

/-- A "put" entry of a batch write (`dns.BatchPutARecordParam` /
`dns.BatchPutAAAARecordParam`): the id of the record to update plus the
record parameter. -/
structure BatchPutParam where
  id : String
  param : RecordParam
deriving DecidableEq, Repr

/-- `prepareBatchCreate` from dnsmanager.go: A records become A params,
AAAA records become AAAA params, any other type produces no entry (the Go
switch has no default case). -/
def prepareBatchCreate (ipv4 ipv6 : String) :
    List DNSRecord → List RecordParam
  | [] => []
  | record :: rest =>
    let tail := prepareBatchCreate ipv4 ipv6 rest
    if record.rtype = ARecord then toDNSARecord record ipv4 :: tail
    else if record.rtype = AAAARecord then toDNSAAAARecord record ipv6 :: tail
    else tail

/-- `prepareBatchUpdate` from dnsmanager.go. -/
def prepareBatchUpdate (ipv4 ipv6 : String) :
    List UpdateDNSRecord → List BatchPutParam
  | [] => []
  | record :: rest =>
    let tail := prepareBatchUpdate ipv4 ipv6 rest
    if record.toRecord.rtype = ARecord then
      ⟨record.id, toDNSARecord record.toRecord ipv4⟩ :: tail
    else if record.toRecord.rtype = AAAARecord then
      ⟨record.id, toDNSAAAARecord record.toRecord ipv6⟩ :: tail
    else tail

/-- A call `EnsureDNSRecords` (or `DeleteDNSRecord`) issues to the
provider: the initial record listing, the single batched write (with its
posts = creates and puts = updates), or a record deletion. -/
inductive ProviderCall where
  | listRecords (zoneID : String)
  | batchWrite (zoneID : String) (posts : List RecordParam)
      (puts : List BatchPutParam)
  | deleteRecord (zoneID recordID : String)
deriving DecidableEq, Repr

/-- `EnsureDNSRecords` from dnsmanager.go, as a pure function.  The
results the provider returns are passed in: `listResult` is what
`GetDNSRecords` yields, `batchResult` is the outcome of the batch call (it
is consulted only if a batch call is actually made).  Returns the Go
function's error result together with the trace of provider calls it
issued. -/
def ensureDNSRecords (zoneID : String)
    (listResult : Except String (List RecordResponse))
    (batchResult : Except String Unit)
    (records : List DNSRecord) (ipv4 ipv6 : String) :
    Except String Unit × List ProviderCall :=
  match listResult with
  | .error e =>
    (.error ("failed to get existing DNS records: " ++ e), [.listRecords zoneID])
  | .ok existingRecords =>
    let existingMap := buildExistingMap existingRecords
    let batches := ensureBatches existingMap ipv4 ipv6 records
    if batches.1 = [] ∧ batches.2 = [] then (.ok (), [.listRecords zoneID])
    else
      let posts := if batches.1 = [] then []
        else prepareBatchCreate ipv4 ipv6 batches.1
      let puts := if batches.2 = [] then []
        else prepareBatchUpdate ipv4 ipv6 batches.2
      let calls := [.listRecords zoneID, .batchWrite zoneID posts puts]
      match batchResult with
      | .error e =>
        (.error ("failed to execute batch DNS record update: " ++ e), calls)
      | .ok _ => (.ok (), calls)

/-- A provider zone (`zones.Zone` as used by `GetZoneIDByName`): the
opaque zone ID and the zone name. -/
structure Zone where
  id : String
  name : String
deriving DecidableEq, Repr

/-- `GetZoneIDByName` from dnsmanager.go: given the result of the
provider's zone listing for the exact-name filter, fail if the listing
failed, fail with a "not found" error naming the zone if it is empty, and
otherwise return the first zone's ID. -/
def getZoneIDByName (zoneName : String)
    (listResult : Except String (List Zone)) : Except String String :=
  match listResult with
  | .error e => .error ("failed to list zones: " ++ e)
  | .ok zs =>
    match zs with
    | [] => .error ("zone " ++ zoneName ++ " not found")
    | z :: _ => .ok z.id

/-- The zone cache (a `sync.Map` in main.go): `Store` appends an entry,
`Load` returns the last entry stored for the key. -/
def cacheFind (cache : List (String × String)) (k : String) : Option String :=
  (cache.reverse.find? (fun p => p.1 = k)).map (·.2)

/-- `getZoneID` from main.go: on a cache hit return the cached ID without
consulting the provider; on a miss use the resolver's result
(`resolveResult`, the value `GetZoneIDByName` would return) and cache a
successful resolution.  The returned Bool records whether the resolver
was consulted. -/
def getZoneID (cache : List (String × String)) (zoneName : String)
    (resolveResult : Except String String) :
    Except String String × List (String × String) × Bool :=
  match cacheFind cache zoneName with
  | some zoneID => (.ok zoneID, cache, false)
  | none =>
    match resolveResult with
    | .error e => (.error e, cache, true)
    | .ok zID => (.ok zID, cache ++ [(zoneName, zID)], true)

/-- A record entry of the configuration (`config.Record`): name, type
string, proxied flag. -/
structure ConfigRecord where
  name : String
  rtype : String
  proxied : Bool
deriving DecidableEq, Repr

/-- A configured domain (`config.Domain`): zone name and its records. -/
structure ConfigDomain where
  zoneName : String
  records : List ConfigRecord
deriving DecidableEq, Repr

/-- The conversion loop inside `updateAllDNSRecords` / `verifyDNSRecords`:
each config record becomes a `DNSRecord` with `Root` set to the domain's
zone name. -/
def toDNSRecords (d : ConfigDomain) : List DNSRecord :=
  d.records.map (fun r => ⟨d.zoneName, r.name, r.rtype, r.proxied⟩)

/-- The provider responses one domain's reconciliation would receive:
the zone listing used on a cache miss, the record listing, and the batch
call outcome. -/
structure DomainCtx where
  dom : ConfigDomain
  zoneListResult : Except String (List Zone)
  listRecordsResult : Except String (List RecordResponse)
  batchResult : Except String Unit

/-- Outcome of one multi-domain sweep: the value of the Go `lastErr`
variable, the final zone cache, the errors logged in order, and the zone
names attempted in order. -/
structure SweepResult where
  lastErr : Option String
  cache : List (String × String)
  errors : List String
  attempted : List String
deriving Repr

/-- The domain loop of `updateAllDNSRecords` (main.go lines 181-211) with
the Go locals (`lastErr`, plus the log of errors and the list of domains
processed) as accumulators: for each domain, resolve the zone ID through
the cache; on failure record the error and continue with the next domain;
otherwise run `EnsureDNSRecords` and record its error, if any. -/
def updateAllAux (ipv4 ipv6 : String) :
    List DomainCtx → List (String × String) → Option String →
    List String → List String → SweepResult
  | [], cache, lastErr, errors, attempted => ⟨lastErr, cache, errors, attempted⟩
  | c :: rest, cache, lastErr, errors, attempted =>
    let z := getZoneID cache c.dom.zoneName
      (getZoneIDByName c.dom.zoneName c.zoneListResult)
    match z.1 with
    | .error e =>
      updateAllAux ipv4 ipv6 rest z.2.1 (some e) (errors ++ [e])
        (attempted ++ [c.dom.zoneName])
    | .ok zoneID =>
      match (ensureDNSRecords zoneID c.listRecordsResult c.batchResult
          (toDNSRecords c.dom) ipv4 ipv6).1 with
      | .error e =>
        updateAllAux ipv4 ipv6 rest z.2.1 (some e) (errors ++ [e])
          (attempted ++ [c.dom.zoneName])
      | .ok _ =>
        updateAllAux ipv4 ipv6 rest z.2.1 lastErr errors
          (attempted ++ [c.dom.zoneName])

/-- `updateAllDNSRecords` from main.go: sweep every configured domain,
starting with `lastErr = nil` and nothing logged. -/
def updateAllDNSRecords (ipv4 ipv6 : String) (ctxs : List DomainCtx)
    (cache : List (String × String)) : SweepResult :=
  updateAllAux ipv4 ipv6 ctxs cache none [] []

/-- `verifyDNSRecords` from main.go: its domain loop is identical to the
one in `updateAllDNSRecords` (it differs only in log text). -/
def verifyDNSRecords (ipv4 ipv6 : String) (ctxs : List DomainCtx)
    (cache : List (String × String)) : SweepResult :=
  updateAllAux ipv4 ipv6 ctxs cache none [] []

/-- The daemon's IP state: the `currentIPv4` / `currentIPv6` atomics of
main.go, read as strings with "" meaning unset (the comma-ok type
assertion on an empty atomic yields ""). -/
structure IPState where
  ipv4 : String
  ipv6 : String
deriving DecidableEq, Repr

/-- Outcome of one `checkAndUpdateIP` poll: the IP state after the poll,
the two per-family change flags, and - when a change fired reconciliation
- the IP state `updateAllDNSRecords` reads (it loads the atomics after
the stores). -/
structure CheckResult where
  state : IPState
  ipv4Changed : Bool
  ipv6Changed : Bool
  reconcileWith : Option IPState
deriving DecidableEq, Repr

/-- The string value a Go caller of `fetchIP` receives: the address on
success, "" (the Go zero value returned alongside the error) on failure. -/
def fetchValue : Except String String → String
  | .ok s => s
  | .error _ => ""

/-- `checkAndUpdateIP` from main.go (lines 116-154): fetch both families
(IPv6 only when enabled; a failed fetch yields "", the value Go's
`fetchIP` returns alongside its error), flag a family as changed when the
new value is non-empty and differs from the stored one, store changed
values, and invoke reconciliation exactly when either family changed. -/
def checkAndUpdateIP (supportsIPv6 : Bool) (st : IPState)
    (fetch4 fetch6 : Except String String) : CheckResult :=
  let newIPv4 := fetchValue fetch4
  let newIPv6 := if supportsIPv6 then fetchValue fetch6 else ""
  let ipv4Changed := newIPv4 ≠ st.ipv4 ∧ newIPv4 ≠ ""
  let ipv6Changed := newIPv6 ≠ st.ipv6 ∧ newIPv6 ≠ ""
  let st' : IPState :=
    ⟨if ipv4Changed then newIPv4 else st.ipv4,
     if ipv6Changed then newIPv6 else st.ipv6⟩
  ⟨st', decide ipv4Changed, decide ipv6Changed,
    if ipv4Changed ∨ ipv6Changed then some st' else none⟩

/-- The scheduler state relevant to the verify (sync) ticker: the IP
state plus the absolute time at which the sync ticker will next fire. -/
structure WatcherState where
  ipState : IPState
  syncDeadline : Nat
deriving DecidableEq, Repr

/-- One firing of the refresh ticker in `Run` (main.go lines 76-79 and
147-151): run `checkAndUpdateIP`; when a change is detected the sync
ticker is Reset, so its next fire moves to `now + syncInterval` (the same
interval value the ticker was created with); otherwise its deadline is
untouched.  Returns the new state and the IP state reconciliation was
invoked with, if it was. -/
def refreshTick (supportsIPv6 : Bool) (syncInterval now : Nat)
    (w : WatcherState) (fetch4 fetch6 : Except String String) :
    WatcherState × Option IPState :=
  let r := checkAndUpdateIP supportsIPv6 w.ipState fetch4 fetch6
  if r.ipv4Changed ∨ r.ipv6Changed then
    (⟨r.state, now + syncInterval⟩, r.reconcileWith)
  else
    (⟨r.state, w.syncDeadline⟩, r.reconcileWith)

/-- What the HTTP layer hands back to `fetchIP`: request construction
failure, transport failure, or a response with a status code and a body
read that may itself fail. -/
inductive HTTPOutcome where
  | reqError (e : String)
  | doError (e : String)
  | response (statusCode : Nat) (readResult : Except String String)
deriving Repr

/-- Go's `strings.TrimSpace`, modelled on the character list: drop
whitespace from the front, then from the back. -/
def trimSpace (s : String) : String :=
  ⟨((s.data.dropWhile Char.isWhitespace).reverse.dropWhile
      Char.isWhitespace).reverse⟩

/-- `fetchIP` from ipfetcher.go: error on request-construction failure,
transport failure, non-200 status or body-read failure; trim the body and
error when the trimmed body is empty; otherwise return the trimmed IP. -/
def fetchIP : HTTPOutcome → Except String String
  | .reqError e => .error ("failed to create request: " ++ e)
  | .doError e => .error ("failed to fetch IP: " ++ e)
  | .response statusCode readResult =>
    if statusCode ≠ 200 then
      .error ("unexpected status code: " ++ toString statusCode)
    else
      match readResult with
      | .error e => .error ("failed to read response: " ++ e)
      | .ok body =>
        let ip := trimSpace body
        if ip = "" then .error "empty IP address received"
        else .ok ip

/-- `GetIPv4` from ipfetcher.go delegates to `fetchIP` (at the IPv4
endpoint). -/
def getIPv4 (o : HTTPOutcome) : Except String String := fetchIP o

/-- `GetIPv6` from ipfetcher.go delegates to `fetchIP` (at the IPv6
endpoint). -/
def getIPv6 (o : HTTPOutcome) : Except String String := fetchIP o

/-- A desired record the diffing loop of `EnsureDNSRecords` skips: its
family's IP value is empty. -/
def skipped (ipv4 ipv6 : String) (r : DNSRecord) : Prop :=
  (r.rtype = ARecord ∧ ipv4 = "") ∨ (r.rtype = AAAARecord ∧ ipv6 = "")

/-- Whether a provider call is the batched write. -/
def ProviderCall.isBatchWrite : ProviderCall → Bool
  | .batchWrite _ _ _ => true
  | _ => false

/-- Whether a provider call is a record deletion. -/
def ProviderCall.isDeleteRecord : ProviderCall → Bool
  | .deleteRecord _ _ => true
  | _ => false

/-- Formalization of the hypothesis of the idempotence claim, following
the spec's scenario "desired matches observed exactly in content and
proxied flag": every desired record the call would act on (not skipped
for lack of an address) already has an observed record under its
reconciliation key whose content equals the relevant IP and whose proxied
flag equals the desired one.  This is the observable outcome of a
successful `EnsureDNSRecords` call with the same inputs. -/
def observedReflectsDesired (m : List (String × RecordResponse))
    (ipv4 ipv6 : String) (records : List DNSRecord) : Bool :=
  records.all fun r =>
    decide (r.rtype = ARecord ∧ ipv4 = "") ||
    decide (r.rtype = AAAARecord ∧ ipv6 = "") ||
    match mapFind m (prepareRecordKey r) with
    | none => false
    | some ex =>
      decide (ex.content = expectedContent r ipv4 ipv6) &&
        decide (ex.proxied = r.proxied)

/-! ## Helper lemmas -/

/-- A char list ending in `"|A"` never equals one ending in `"|AAAA"`:
the penultimate characters differ. -/
theorem key_suffix_ne (l1 l2 : List Char) :
    ¬ (l1 ++ ['|', 'A'] = l2 ++ ['|', 'A', 'A', 'A', 'A']) := by
  intro h
  have h' := congrArg List.reverse h
  simp [List.reverse_append] at h'

/-- The `name ++ "|" ++ type` encoding of a reconciliation key is
injective as long as both type strings are "A" or "AAAA". -/
theorem key_eq_iff (n1 n2 t1 t2 : String)
    (h1 : t1 = "A" ∨ t1 = "AAAA") (h2 : t2 = "A" ∨ t2 = "AAAA") :
    n1 ++ "|" ++ t1 = n2 ++ "|" ++ t2 ↔ (n1 = n2 ∧ t1 = t2) := by
  constructor
  · intro h
    have hd := congrArg String.data h
    simp only [String.data_append] at hd
    rcases h1 with rfl | rfl <;> rcases h2 with rfl | rfl
    · have : n1.data = n2.data := by
        apply @List.append_cancel_right _ n1.data ['|', 'A'] n2.data
        simpa using hd
      exact ⟨String.ext this, rfl⟩
    · exact absurd (by simpa using hd) (key_suffix_ne n1.data n2.data)
    · exact absurd (by simpa using hd.symm) (key_suffix_ne n2.data n1.data)
    · have : n1.data = n2.data := by
        apply @List.append_cancel_right _ n1.data ['|', 'A', 'A', 'A', 'A']
          n2.data
        simpa using hd
      exact ⟨String.ext this, rfl⟩
  · rintro ⟨rfl, rfl⟩
    rfl

/-- Characterization of the diffing loop: a record is in the create batch
iff it occurs in the desired list, is not skipped, and its key is absent
from the existing map; an (id, record) pair is in the update batch iff
the record occurs, is not skipped, and the existing record found under
its key carries that id and differs in content or proxied flag. -/
theorem ensureBatches_mem (m : List (String × RecordResponse))
    (ipv4 ipv6 : String) (records : List DNSRecord) :
    (∀ r : DNSRecord,
      r ∈ (ensureBatches m ipv4 ipv6 records).1 ↔
        (r ∈ records ∧ ¬ skipped ipv4 ipv6 r ∧
          mapFind m (prepareRecordKey r) = none)) ∧
    (∀ (i : String) (r : DNSRecord),
      UpdateDNSRecord.mk i r ∈ (ensureBatches m ipv4 ipv6 records).2 ↔
        (r ∈ records ∧ ¬ skipped ipv4 ipv6 r ∧
          ∃ ex : RecordResponse, mapFind m (prepareRecordKey r) = some ex ∧
            ex.id = i ∧
            (ex.content ≠ expectedContent r ipv4 ipv6 ∨
              ex.proxied ≠ r.proxied))) := by
  induction records with
  | nil => simp [ensureBatches]
  | cons c rest ih =>
    obtain ⟨ihc, ihu⟩ := ih
    constructor
    · intro r
      simp only [ensureBatches]
      by_cases h1 : c.rtype = ARecord ∧ ipv4 = ""
      · simp only [if_pos h1]
        rw [ihc r]
        constructor
        · rintro ⟨hm, hs, hf⟩; exact ⟨List.mem_cons_of_mem _ hm, hs, hf⟩
        · rintro ⟨hm, hs, hf⟩
          rcases List.mem_cons.mp hm with rfl | hm
          · exact absurd (Or.inl h1) hs
          · exact ⟨hm, hs, hf⟩
      · simp only [if_neg h1]
        by_cases h2 : c.rtype = AAAARecord ∧ ipv6 = ""
        · simp only [if_pos h2]
          rw [ihc r]
          constructor
          · rintro ⟨hm, hs, hf⟩; exact ⟨List.mem_cons_of_mem _ hm, hs, hf⟩
          · rintro ⟨hm, hs, hf⟩
            rcases List.mem_cons.mp hm with rfl | hm
            · exact absurd (Or.inr h2) hs
            · exact ⟨hm, hs, hf⟩
        · simp only [if_neg h2]
          have hns : ¬ skipped ipv4 ipv6 c := by
            intro h; rcases h with h | h
            · exact h1 h
            · exact h2 h
          rcases hf : mapFind m (prepareRecordKey c) with _ | ex
          · simp only [List.mem_cons]
            constructor
            · rintro (rfl | hm)
              · exact ⟨Or.inl rfl, hns, hf⟩
              · obtain ⟨a, b, d⟩ := (ihc r).mp hm
                exact ⟨Or.inr a, b, d⟩
            · rintro ⟨hm, hs, hmf⟩
              rcases hm with rfl | hm
              · exact Or.inl rfl
              · exact Or.inr ((ihc r).mpr ⟨hm, hs, hmf⟩)
          · by_cases hd : ex.content ≠ expectedContent c ipv4 ipv6 ∨
                ex.proxied ≠ c.proxied
            · simp only [if_pos hd]
              rw [ihc r]
              constructor
              · rintro ⟨hm, hs, hmf⟩; exact ⟨List.mem_cons_of_mem _ hm, hs, hmf⟩
              · rintro ⟨hm, hs, hmf⟩
                rcases List.mem_cons.mp hm with rfl | hm
                · rw [hf] at hmf; exact absurd hmf (by simp)
                · exact ⟨hm, hs, hmf⟩
            · simp only [if_neg hd]
              rw [ihc r]
              constructor
              · rintro ⟨hm, hs, hmf⟩; exact ⟨List.mem_cons_of_mem _ hm, hs, hmf⟩
              · rintro ⟨hm, hs, hmf⟩
                rcases List.mem_cons.mp hm with rfl | hm
                · rw [hf] at hmf; exact absurd hmf (by simp)
                · exact ⟨hm, hs, hmf⟩
    · intro i r
      simp only [ensureBatches]
      by_cases h1 : c.rtype = ARecord ∧ ipv4 = ""
      · simp only [if_pos h1]
        rw [ihu i r]
        constructor
        · rintro ⟨hm, hs, hf⟩; exact ⟨List.mem_cons_of_mem _ hm, hs, hf⟩
        · rintro ⟨hm, hs, hf⟩
          rcases List.mem_cons.mp hm with rfl | hm
          · exact absurd (Or.inl h1) hs
          · exact ⟨hm, hs, hf⟩
      · simp only [if_neg h1]
        by_cases h2 : c.rtype = AAAARecord ∧ ipv6 = ""
        · simp only [if_pos h2]
          rw [ihu i r]
          constructor
          · rintro ⟨hm, hs, hf⟩; exact ⟨List.mem_cons_of_mem _ hm, hs, hf⟩
          · rintro ⟨hm, hs, hf⟩
            rcases List.mem_cons.mp hm with rfl | hm
            · exact absurd (Or.inr h2) hs
            · exact ⟨hm, hs, hf⟩
        · have hns : ¬ skipped ipv4 ipv6 c := by
            intro h; rcases h with h | h
            · exact h1 h
            · exact h2 h
          simp only [if_neg h2]
          rcases hf : mapFind m (prepareRecordKey c) with _ | ex
          · rw [ihu i r]
            constructor
            · rintro ⟨hm, hs, hmf⟩; exact ⟨List.mem_cons_of_mem _ hm, hs, hmf⟩
            · rintro ⟨hm, hs, hmf⟩
              rcases List.mem_cons.mp hm with rfl | hm
              · obtain ⟨ex, hex, _⟩ := hmf
                rw [hf] at hex; exact absurd hex (by simp)
              · exact ⟨hm, hs, hmf⟩
          · by_cases hd : ex.content ≠ expectedContent c ipv4 ipv6 ∨
                ex.proxied ≠ c.proxied
            · simp only [if_pos hd, List.mem_cons]
              constructor
              · rintro (he | hm)
                · injection he with he1 he2
                  subst he1; subst he2
                  exact ⟨Or.inl rfl, hns, ex, hf, rfl, hd⟩
                · obtain ⟨a, b, d⟩ := (ihu i r).mp hm
                  exact ⟨Or.inr a, b, d⟩
              · rintro ⟨hm, hs, ex', hex', hid, hd'⟩
                rcases hm with rfl | hm
                · rw [hf] at hex'
                  obtain rfl : ex = ex' := by injection hex'
                  subst hid
                  exact Or.inl rfl
                · exact Or.inr ((ihu i r).mpr ⟨hm, hs, ex', hex', hid, hd'⟩)
            · simp only [if_neg hd]
              rw [ihu i r]
              constructor
              · rintro ⟨hm, hs, hmf⟩; exact ⟨List.mem_cons_of_mem _ hm, hs, hmf⟩
              · rintro ⟨hm, hs, hmf⟩
                rcases List.mem_cons.mp hm with rfl | hm
                · obtain ⟨ex', hex', hid, hd'⟩ := hmf
                  rw [hf] at hex'
                  obtain rfl : ex = ex' := by injection hex'
                  exact absurd hd' hd
                · exact ⟨hm, hs, hmf⟩

/-- Every entry of a prepared create batch comes from an A or AAAA record
of the input list, via the corresponding conversion. -/
theorem mem_prepareBatchCreate (ipv4 ipv6 : String) :
    ∀ (rs : List DNSRecord) (p : RecordParam),
      p ∈ prepareBatchCreate ipv4 ipv6 rs →
      ∃ r ∈ rs, (r.rtype = ARecord ∧ p = toDNSARecord r ipv4) ∨
        (r.rtype = AAAARecord ∧ p = toDNSAAAARecord r ipv6) := by
  intro rs
  induction rs with
  | nil => intro p h; simp [prepareBatchCreate] at h
  | cons c rest ih =>
    intro p h
    simp only [prepareBatchCreate] at h
    split at h
    · rcases List.mem_cons.mp h with rfl | h
      · exact ⟨c, List.mem_cons_self _ _, Or.inl ⟨by assumption, rfl⟩⟩
      · obtain ⟨r, hr, hd⟩ := ih p h
        exact ⟨r, List.mem_cons_of_mem _ hr, hd⟩
    · split at h
      · rcases List.mem_cons.mp h with rfl | h
        · exact ⟨c, List.mem_cons_self _ _, Or.inr ⟨by assumption, rfl⟩⟩
        · obtain ⟨r, hr, hd⟩ := ih p h
          exact ⟨r, List.mem_cons_of_mem _ hr, hd⟩
      · obtain ⟨r, hr, hd⟩ := ih p h
        exact ⟨r, List.mem_cons_of_mem _ hr, hd⟩

/-- Every entry of a prepared update batch comes from an A or AAAA update
record of the input list, via the corresponding conversion. -/
theorem mem_prepareBatchUpdate (ipv4 ipv6 : String) :
    ∀ (us : List UpdateDNSRecord) (q : BatchPutParam),
      q ∈ prepareBatchUpdate ipv4 ipv6 us →
      ∃ u ∈ us,
        (u.toRecord.rtype = ARecord ∧
          q = ⟨u.id, toDNSARecord u.toRecord ipv4⟩) ∨
        (u.toRecord.rtype = AAAARecord ∧
          q = ⟨u.id, toDNSAAAARecord u.toRecord ipv6⟩) := by
  intro us
  induction us with
  | nil => intro q h; simp [prepareBatchUpdate] at h
  | cons c rest ih =>
    intro q h
    simp only [prepareBatchUpdate] at h
    split at h
    · rcases List.mem_cons.mp h with rfl | h
      · exact ⟨c, List.mem_cons_self _ _, Or.inl ⟨by assumption, rfl⟩⟩
      · obtain ⟨u, hu, hd⟩ := ih q h
        exact ⟨u, List.mem_cons_of_mem _ hu, hd⟩
    · split at h
      · rcases List.mem_cons.mp h with rfl | h
        · exact ⟨c, List.mem_cons_self _ _, Or.inr ⟨by assumption, rfl⟩⟩
        · obtain ⟨u, hu, hd⟩ := ih q h
          exact ⟨u, List.mem_cons_of_mem _ hu, hd⟩
      · obtain ⟨u, hu, hd⟩ := ih q h
        exact ⟨u, List.mem_cons_of_mem _ hu, hd⟩

/-- Unfolding of `observedReflectsDesired`: every desired record is
either skipped or already matched exactly by the observed record under
its key. -/
theorem observedReflectsDesired_spec
    (m : List (String × RecordResponse)) (ipv4 ipv6 : String)
    (records : List DNSRecord)
    (h : observedReflectsDesired m ipv4 ipv6 records = true)
    (r : DNSRecord) (hr : r ∈ records) :
    skipped ipv4 ipv6 r ∨
      ∃ ex : RecordResponse, mapFind m (prepareRecordKey r) = some ex ∧
        ex.content = expectedContent r ipv4 ipv6 ∧
        ex.proxied = r.proxied := by
  have hb := List.all_eq_true.mp h r hr
  rcases hf : mapFind m (prepareRecordKey r) with _ | ex
  · rw [hf] at hb
    simp only [Bool.or_eq_true, decide_eq_true_eq, Bool.or_false] at hb
    exact Or.inl hb
  · rw [hf] at hb
    simp only [Bool.or_eq_true, Bool.and_eq_true, decide_eq_true_eq] at hb
    rcases hb with hb | ⟨h1, h2⟩
    · exact Or.inl hb
    · exact Or.inr ⟨ex, rfl, h1, h2⟩

/-- Evaluation of `checkAndUpdateIP` with its locals written out. -/
theorem checkAndUpdateIP_eq (supportsIPv6 : Bool) (st : IPState)
    (fetch4 fetch6 : Except String String) :
    checkAndUpdateIP supportsIPv6 st fetch4 fetch6 =
      ⟨⟨if fetchValue fetch4 ≠ st.ipv4 ∧ fetchValue fetch4 ≠ "" then
            fetchValue fetch4 else st.ipv4,
        if (if supportsIPv6 then fetchValue fetch6 else "") ≠ st.ipv6 ∧
            (if supportsIPv6 then fetchValue fetch6 else "") ≠ "" then
          (if supportsIPv6 then fetchValue fetch6 else "")
        else st.ipv6⟩,
       decide (fetchValue fetch4 ≠ st.ipv4 ∧ fetchValue fetch4 ≠ ""),
       decide ((if supportsIPv6 then fetchValue fetch6 else "") ≠
          st.ipv6 ∧
         (if supportsIPv6 then fetchValue fetch6 else "") ≠ ""),
       if (fetchValue fetch4 ≠ st.ipv4 ∧ fetchValue fetch4 ≠ "") ∨
           ((if supportsIPv6 then fetchValue fetch6 else "") ≠ st.ipv6 ∧
             (if supportsIPv6 then fetchValue fetch6 else "") ≠ "") then
         some ⟨if fetchValue fetch4 ≠ st.ipv4 ∧ fetchValue fetch4 ≠ ""
             then fetchValue fetch4 else st.ipv4,
           if (if supportsIPv6 then fetchValue fetch6 else "") ≠
               st.ipv6 ∧
               (if supportsIPv6 then fetchValue fetch6 else "") ≠ "" then
             (if supportsIPv6 then fetchValue fetch6 else "")
           else st.ipv6⟩
       else none⟩ :=
  rfl

/-- `checkAndUpdateIP` reports no reconciliation exactly when neither
family changed. -/
theorem checkAndUpdateIP_reconcileWith_none (supportsIPv6 : Bool)
    (st : IPState) (fetch4 fetch6 : Except String String) :
    (checkAndUpdateIP supportsIPv6 st fetch4 fetch6).reconcileWith =
        none ↔
      ((checkAndUpdateIP supportsIPv6 st fetch4 fetch6).ipv4Changed =
          false ∧
        (checkAndUpdateIP supportsIPv6 st fetch4 fetch6).ipv6Changed =
          false) := by
  simp only [checkAndUpdateIP_eq]
  by_cases hor : (fetchValue fetch4 ≠ st.ipv4 ∧ fetchValue fetch4 ≠ "") ∨
      ((if supportsIPv6 then fetchValue fetch6 else "") ≠ st.ipv6 ∧
        (if supportsIPv6 then fetchValue fetch6 else "") ≠ "")
  · simp only [if_pos hor]
    constructor
    · intro hcon
      cases hcon
    · rintro ⟨hc4, hc6⟩
      simp only [decide_eq_false_iff_not] at hc4 hc6
      exact absurd hor (by tauto)
  · simp only [if_neg hor]
    simp only [decide_eq_false_iff_not]
    constructor
    · intro _
      constructor <;> tauto
    · intro _
      trivial

/-- The reconciliation argument a refresh tick passes on is exactly what
`checkAndUpdateIP` computed. -/
theorem refreshTick_snd (supportsIPv6 : Bool) (syncInterval now : Nat)
    (w : WatcherState) (fetch4 fetch6 : Except String String) :
    (refreshTick supportsIPv6 syncInterval now w fetch4 fetch6).2 =
      CheckResult.reconcileWith
        (checkAndUpdateIP supportsIPv6 w.ipState fetch4 fetch6) := by
  simp only [refreshTick]
  split <;> rfl

/-- The sync deadline after a refresh tick: moved to `now + syncInterval`
when a change was detected, untouched otherwise. -/
theorem refreshTick_deadline (supportsIPv6 : Bool)
    (syncInterval now : Nat) (w : WatcherState)
    (fetch4 fetch6 : Except String String) :
    (refreshTick supportsIPv6 syncInterval now w fetch4
        fetch6).1.syncDeadline =
      if (checkAndUpdateIP supportsIPv6 w.ipState fetch4
            fetch6).ipv4Changed = true ∨
          (checkAndUpdateIP supportsIPv6 w.ipState fetch4
            fetch6).ipv6Changed = true then
        now + syncInterval
      else w.syncDeadline := by
  simp only [refreshTick]
  split <;> rfl

/-! ## Claim theorems -/

/-- C1: for a desired record whose key matches an observed record and
whose relevant IP is non-empty, `EnsureDNSRecords` puts it in the update
batch iff the observed content differs from the relevant IP or the
proxied flags differ; a pair matching in both never appears in the create
or update batch. -/
theorem ensure_update_iff_differs (existing : List RecordResponse)
    (records : List DNSRecord) (ipv4 ipv6 : String) (r : DNSRecord)
    (ex : RecordResponse) (hmem : r ∈ records)
    (hip : expectedContent r ipv4 ipv6 ≠ "")
    (hfound : mapFind (buildExistingMap existing) (prepareRecordKey r) =
      some ex) :
    ((∃ i, UpdateDNSRecord.mk i r ∈
        (ensureBatches (buildExistingMap existing) ipv4 ipv6 records).2) ↔
      (ex.content ≠ expectedContent r ipv4 ipv6 ∨
        ex.proxied ≠ r.proxied)) ∧
    r ∉ (ensureBatches (buildExistingMap existing) ipv4 ipv6 records).1 := by
  have hns : ¬ skipped ipv4 ipv6 r := by
    rintro (⟨ht, h4⟩ | ⟨ht, h6⟩)
    · apply hip
      simp [expectedContent, ht, h4]
    · apply hip
      simp [expectedContent, ht, h6, ARecord, AAAARecord]
  obtain ⟨hc, hu⟩ :=
    ensureBatches_mem (buildExistingMap existing) ipv4 ipv6 records
  refine ⟨⟨?_, ?_⟩, ?_⟩
  · rintro ⟨i, hin⟩
    obtain ⟨-, -, ex', hex', -, hd⟩ := (hu i r).mp hin
    rw [hfound] at hex'
    obtain rfl : ex = ex' := by injection hex'
    exact hd
  · intro hd
    exact ⟨ex.id, (hu ex.id r).mpr ⟨hmem, hns, ex, hfound, rfl, hd⟩⟩
  · intro hin
    obtain ⟨-, -, hnone⟩ := (hc r).mp hin
    rw [hfound] at hnone
    cases hnone

/-- Witness for `ensure_update_iff_differs`: one apex A record whose
observed content 1.1.1.1 is compared against the new address 2.2.2.2. -/
theorem ensure_update_iff_differs_witness :
    ((∃ i, UpdateDNSRecord.mk i (DNSRecord.mk "example.com" "@" "A" false) ∈
        (ensureBatches
          (buildExistingMap
            [RecordResponse.mk "rid" "example.com" "A" "1.1.1.1" false])
          "2.2.2.2" "" [DNSRecord.mk "example.com" "@" "A" false]).2) ↔
      ((RecordResponse.mk "rid" "example.com" "A" "1.1.1.1" false).content ≠
          expectedContent (DNSRecord.mk "example.com" "@" "A" false)
            "2.2.2.2" "" ∨
        (RecordResponse.mk "rid" "example.com" "A" "1.1.1.1" false).proxied ≠
          (DNSRecord.mk "example.com" "@" "A" false).proxied)) ∧
    DNSRecord.mk "example.com" "@" "A" false ∉
      (ensureBatches
        (buildExistingMap
          [RecordResponse.mk "rid" "example.com" "A" "1.1.1.1" false])
        "2.2.2.2" "" [DNSRecord.mk "example.com" "@" "A" false]).1 :=
  ensure_update_iff_differs
    [RecordResponse.mk "rid" "example.com" "A" "1.1.1.1" false]
    [DNSRecord.mk "example.com" "@" "A" false] "2.2.2.2" ""
    (DNSRecord.mk "example.com" "@" "A" false)
    (RecordResponse.mk "rid" "example.com" "A" "1.1.1.1" false)
    (List.mem_singleton.mpr rfl) (by decide) rfl

/-- C2: if the provider's observed state already reflects the outcome of
a successful `EnsureDNSRecords` call with the same records and IPs (every
acted-on desired record is matched exactly in content and proxied flag by
the observed record under its key), calling again computes empty create
and update batches and issues zero batch writes. -/
theorem ensure_idempotent (zoneID : String)
    (existing : List RecordResponse) (batchResult : Except String Unit)
    (records : List DNSRecord) (ipv4 ipv6 : String)
    (h : observedReflectsDesired (buildExistingMap existing) ipv4 ipv6
      records = true) :
    ensureBatches (buildExistingMap existing) ipv4 ipv6 records =
      ([], []) ∧
    ensureDNSRecords zoneID (.ok existing) batchResult records ipv4 ipv6 =
      (.ok (), [.listRecords zoneID]) := by
  obtain ⟨hc, hu⟩ :=
    ensureBatches_mem (buildExistingMap existing) ipv4 ipv6 records
  have hempty :
      ensureBatches (buildExistingMap existing) ipv4 ipv6 records =
        ([], []) := by
    rw [Prod.ext_iff]
    constructor
    · rw [List.eq_nil_iff_forall_not_mem]
      intro r hin
      obtain ⟨hr, hns, hnone⟩ := (hc r).mp hin
      rcases observedReflectsDesired_spec _ _ _ _ h r hr with
        hs | ⟨ex, hex, -, -⟩
      · exact hns hs
      · rw [hnone] at hex
        cases hex
    · rw [List.eq_nil_iff_forall_not_mem]
      intro u hin
      obtain ⟨i, r⟩ := u
      obtain ⟨hr, hns, ex, hex, -, hd⟩ := (hu i r).mp hin
      rcases observedReflectsDesired_spec _ _ _ _ h r hr with
        hs | ⟨ex', hex', hcj, hpj⟩
      · exact hns hs
      · rw [hex] at hex'
        obtain rfl : ex = ex' := by injection hex'
        rcases hd with hd | hd
        · exact hd hcj
        · exact hd hpj
  refine ⟨hempty, ?_⟩
  simp [ensureDNSRecords, hempty]

/-- Witness for `ensure_idempotent`: the provider already holds the apex
A record with the current address and proxied flag, so the call is a
no-op. -/
theorem ensure_idempotent_witness :
    ensureBatches
      (buildExistingMap
        [RecordResponse.mk "rid" "example.com" "A" "1.2.3.4" false])
      "1.2.3.4" "" [DNSRecord.mk "example.com" "@" "A" false] = ([], []) ∧
    ensureDNSRecords "z1"
      (.ok [RecordResponse.mk "rid" "example.com" "A" "1.2.3.4" false])
      (.ok ()) [DNSRecord.mk "example.com" "@" "A" false] "1.2.3.4" "" =
      (.ok (), [.listRecords "z1"]) :=
  ensure_idempotent "z1"
    [RecordResponse.mk "rid" "example.com" "A" "1.2.3.4" false] (.ok ())
    [DNSRecord.mk "example.com" "@" "A" false] "1.2.3.4" "" rfl

/-- C3: with an empty IPv6 value no AAAA record is placed in the create
or update batch (neither among the batched desired records nor among the
wire parameters), and symmetrically with an empty IPv4 value for A
records; a desired list consisting only of records of the missing family
yields a successful call with zero writes (skipping is not an error). -/
theorem ensure_skips_empty_ip (zoneID : String)
    (existing : List RecordResponse) (records : List DNSRecord)
    (ipv4 ipv6 : String) (batchResult : Except String Unit) :
    (∀ r ∈ (ensureBatches (buildExistingMap existing) ipv4 "" records).1,
      r.rtype ≠ AAAARecord) ∧
    (∀ u ∈ (ensureBatches (buildExistingMap existing) ipv4 "" records).2,
      u.toRecord.rtype ≠ AAAARecord) ∧
    (∀ p ∈ prepareBatchCreate ipv4 ""
        (ensureBatches (buildExistingMap existing) ipv4 "" records).1,
      p.rtype ≠ AAAARecord) ∧
    (∀ q ∈ prepareBatchUpdate ipv4 ""
        (ensureBatches (buildExistingMap existing) ipv4 "" records).2,
      q.param.rtype ≠ AAAARecord) ∧
    (∀ r ∈ (ensureBatches (buildExistingMap existing) "" ipv6 records).1,
      r.rtype ≠ ARecord) ∧
    (∀ u ∈ (ensureBatches (buildExistingMap existing) "" ipv6 records).2,
      u.toRecord.rtype ≠ ARecord) ∧
    ((∀ r ∈ records, r.rtype = AAAARecord) →
      ensureDNSRecords zoneID (.ok existing) batchResult records ipv4 "" =
        (.ok (), [.listRecords zoneID])) ∧
    ((∀ r ∈ records, r.rtype = ARecord) →
      ensureDNSRecords zoneID (.ok existing) batchResult records "" ipv6 =
        (.ok (), [.listRecords zoneID])) := by
  obtain ⟨hc6, hu6⟩ :=
    ensureBatches_mem (buildExistingMap existing) ipv4 "" records
  obtain ⟨hc4, hu4⟩ :=
    ensureBatches_mem (buildExistingMap existing) "" ipv6 records
  have hcre6 : ∀ r ∈
      (ensureBatches (buildExistingMap existing) ipv4 "" records).1,
      r.rtype ≠ AAAARecord := by
    intro r hin ht
    obtain ⟨-, hns, -⟩ := (hc6 r).mp hin
    exact hns (Or.inr ⟨ht, rfl⟩)
  have hupd6 : ∀ u ∈
      (ensureBatches (buildExistingMap existing) ipv4 "" records).2,
      u.toRecord.rtype ≠ AAAARecord := by
    intro u hin ht
    obtain ⟨i, r⟩ := u
    obtain ⟨-, hns, -⟩ := (hu6 i r).mp hin
    exact hns (Or.inr ⟨ht, rfl⟩)
  have hcre4 : ∀ r ∈
      (ensureBatches (buildExistingMap existing) "" ipv6 records).1,
      r.rtype ≠ ARecord := by
    intro r hin ht
    obtain ⟨-, hns, -⟩ := (hc4 r).mp hin
    exact hns (Or.inl ⟨ht, rfl⟩)
  have hupd4 : ∀ u ∈
      (ensureBatches (buildExistingMap existing) "" ipv6 records).2,
      u.toRecord.rtype ≠ ARecord := by
    intro u hin ht
    obtain ⟨i, r⟩ := u
    obtain ⟨-, hns, -⟩ := (hu4 i r).mp hin
    exact hns (Or.inl ⟨ht, rfl⟩)
  refine ⟨hcre6, hupd6, ?_, ?_, hcre4, hupd4, ?_, ?_⟩
  · intro p hp
    obtain ⟨r, hr, hd⟩ := mem_prepareBatchCreate ipv4 "" _ p hp
    rcases hd with ⟨-, rfl⟩ | ⟨ht, -⟩
    · intro hcon
      exact absurd (show (ARecord : String) = AAAARecord from hcon)
        (by decide)
    · exact absurd ht (hcre6 r hr)
  · intro q hq
    obtain ⟨u, hu, hd⟩ := mem_prepareBatchUpdate ipv4 "" _ q hq
    rcases hd with ⟨-, rfl⟩ | ⟨ht, -⟩
    · intro hcon
      exact absurd (show (ARecord : String) = AAAARecord from hcon)
        (by decide)
    · exact absurd ht (hupd6 u hu)
  · intro hall
    have hempty :
        ensureBatches (buildExistingMap existing) ipv4 "" records =
          ([], []) := by
      rw [Prod.ext_iff]
      constructor
      · rw [List.eq_nil_iff_forall_not_mem]
        intro r hin
        obtain ⟨hr, hns, -⟩ := (hc6 r).mp hin
        exact hns (Or.inr ⟨hall r hr, rfl⟩)
      · rw [List.eq_nil_iff_forall_not_mem]
        intro u hin
        obtain ⟨i, r⟩ := u
        obtain ⟨hr, hns, -⟩ := (hu6 i r).mp hin
        exact hns (Or.inr ⟨hall r hr, rfl⟩)
    simp [ensureDNSRecords, hempty]
  · intro hall
    have hempty :
        ensureBatches (buildExistingMap existing) "" ipv6 records =
          ([], []) := by
      rw [Prod.ext_iff]
      constructor
      · rw [List.eq_nil_iff_forall_not_mem]
        intro r hin
        obtain ⟨hr, hns, -⟩ := (hc4 r).mp hin
        exact hns (Or.inl ⟨hall r hr, rfl⟩)
      · rw [List.eq_nil_iff_forall_not_mem]
        intro u hin
        obtain ⟨i, r⟩ := u
        obtain ⟨hr, hns, -⟩ := (hu4 i r).mp hin
        exact hns (Or.inl ⟨hall r hr, rfl⟩)
    simp [ensureDNSRecords, hempty]

/-- Witness for `ensure_skips_empty_ip`: one AAAA desired record and an
empty IPv6 address produce a successful call with zero writes. -/
theorem ensure_skips_empty_ip_witness :
    ensureDNSRecords "z1"
      (.ok [RecordResponse.mk "rid" "example.com" "A" "1.2.3.4" false])
      (.ok ()) [DNSRecord.mk "example.com" "@" "AAAA" false] "5.6.7.8" "" =
      (.ok (), [.listRecords "z1"]) :=
  (ensure_skips_empty_ip "z1"
      [RecordResponse.mk "rid" "example.com" "A" "1.2.3.4" false]
      [DNSRecord.mk "example.com" "@" "AAAA" false] "5.6.7.8" "anyv6"
      (.ok ())).2.2.2.2.2.2.1 (by decide)

/-- C4: the reconciliation key of a desired record is `root ++ "|" ++
kind` for name "@" and `name ++ "." ++ root ++ "|" ++ kind` otherwise;
consequently (for A/AAAA kinds) a desired record with name "@" matches
exactly the observed records whose full name equals the zone root and
whose kind agrees, and a desired record "www" on zone example.com matches
only an observed record with full name "www.example.com" of kind A. -/
theorem prepareRecordKey_matching :
    (∀ d : DNSRecord, d.name = "@" →
      prepareRecordKey d = d.root ++ "|" ++ d.rtype) ∧
    (∀ d : DNSRecord, d.name ≠ "@" →
      prepareRecordKey d = d.name ++ "." ++ d.root ++ "|" ++ d.rtype) ∧
    (∀ (d : DNSRecord) (o : RecordResponse), d.name = "@" →
      (d.rtype = ARecord ∨ d.rtype = AAAARecord) →
      (o.rtype = ARecord ∨ o.rtype = AAAARecord) →
      (prepareRecordKey d = responseKey o ↔
        (o.name = d.root ∧ o.rtype = d.rtype))) ∧
    (∀ (o : RecordResponse) (proxied : Bool),
      (o.rtype = ARecord ∨ o.rtype = AAAARecord) →
      (prepareRecordKey ⟨"example.com", "www", ARecord, proxied⟩ =
          responseKey o ↔
        (o.name = "www.example.com" ∧ o.rtype = ARecord))) := by
  refine ⟨fun d h => by simp [prepareRecordKey, h],
    fun d h => by simp [prepareRecordKey, h], ?_, ?_⟩
  · intro d o hat h1 h2
    have hk : prepareRecordKey d = d.root ++ "|" ++ d.rtype := by
      simp [prepareRecordKey, hat]
    rw [hk, responseKey, key_eq_iff d.root o.name d.rtype o.rtype h1 h2]
    constructor
    · rintro ⟨h, h'⟩; exact ⟨h.symm, h'.symm⟩
    · rintro ⟨h, h'⟩; exact ⟨h.symm, h'.symm⟩
  · intro o proxied h2
    have hk : prepareRecordKey ⟨"example.com", "www", ARecord, proxied⟩ =
        "www.example.com" ++ "|" ++ "A" := rfl
    rw [hk, responseKey,
      key_eq_iff "www.example.com" o.name "A" o.rtype (Or.inl rfl) h2]
    constructor
    · rintro ⟨h, h'⟩; exact ⟨h.symm, h'.symm⟩
    · rintro ⟨h, h'⟩; exact ⟨h.symm, h'.symm⟩

/-- Witness for `prepareRecordKey_matching`, applying it at a concrete
apex record and matching/non-matching observed records. -/
theorem prepareRecordKey_matching_witness :
    (prepareRecordKey ⟨"example.com", "@", "A", false⟩ =
        responseKey ⟨"id1", "example.com", "A", "1.1.1.1", true⟩ ↔
      (("example.com" : String) = "example.com" ∧ ("A" : String) = "A")) ∧
    (prepareRecordKey ⟨"example.com", "www", ARecord, true⟩ =
        responseKey ⟨"id2", "www.example.com", "A", "1.1.1.1", false⟩ ↔
      (("www.example.com" : String) = "www.example.com" ∧
        ("A" : String) = "A")) :=
  ⟨prepareRecordKey_matching.2.2.1 ⟨"example.com", "@", "A", false⟩
      ⟨"id1", "example.com", "A", "1.1.1.1", true⟩ rfl (Or.inl rfl)
      (Or.inl rfl),
    prepareRecordKey_matching.2.2.2 ⟨"id2", "www.example.com", "A",
      "1.1.1.1", false⟩ true (Or.inl rfl)⟩

/-- C5: an `EnsureDNSRecords` call issues at most one batch write and
never a delete; when both computed batches are empty it returns success
having issued zero write calls; and every wire batch entry (post or put)
carries type A or AAAA. -/
theorem ensure_single_batch_no_delete (zoneID : String)
    (listResult : Except String (List RecordResponse))
    (batchResult : Except String Unit) (records : List DNSRecord)
    (ipv4 ipv6 : String) :
    (ensureDNSRecords zoneID listResult batchResult records ipv4
        ipv6).2.countP ProviderCall.isBatchWrite ≤ 1 ∧
    (∀ c ∈ (ensureDNSRecords zoneID listResult batchResult records ipv4
        ipv6).2, c.isDeleteRecord = false) ∧
    (∀ existing, listResult = .ok existing →
      ensureBatches (buildExistingMap existing) ipv4 ipv6 records =
        ([], []) →
      ensureDNSRecords zoneID listResult batchResult records ipv4 ipv6 =
        (.ok (), [.listRecords zoneID])) ∧
    (∀ zid posts puts,
      ProviderCall.batchWrite zid posts puts ∈
        (ensureDNSRecords zoneID listResult batchResult records ipv4
          ipv6).2 →
      (∀ p ∈ posts, p.rtype = ARecord ∨ p.rtype = AAAARecord) ∧
      (∀ q ∈ puts,
        q.param.rtype = ARecord ∨ q.param.rtype = AAAARecord)) := by
  have hposts : ∀ (cs : List DNSRecord) (p : RecordParam),
      p ∈ prepareBatchCreate ipv4 ipv6 cs →
      p.rtype = ARecord ∨ p.rtype = AAAARecord := by
    intro cs p hp
    obtain ⟨r, -, hd⟩ := mem_prepareBatchCreate ipv4 ipv6 cs p hp
    rcases hd with ⟨-, rfl⟩ | ⟨-, rfl⟩
    · exact Or.inl rfl
    · exact Or.inr rfl
  have hputs : ∀ (us : List UpdateDNSRecord) (q : BatchPutParam),
      q ∈ prepareBatchUpdate ipv4 ipv6 us →
      q.param.rtype = ARecord ∨ q.param.rtype = AAAARecord := by
    intro us q hq
    obtain ⟨u, -, hd⟩ := mem_prepareBatchUpdate ipv4 ipv6 us q hq
    rcases hd with ⟨-, rfl⟩ | ⟨-, rfl⟩
    · exact Or.inl rfl
    · exact Or.inr rfl
  cases listResult with
  | error e =>
    refine ⟨?_, ?_, ?_, ?_⟩
    · simp [ensureDNSRecords, List.countP, List.countP.go,
        ProviderCall.isBatchWrite]
    · intro c hc
      simp only [ensureDNSRecords, List.mem_singleton] at hc
      subst hc
      rfl
    · intro existing hcon
      cases hcon
    · intro zid posts puts hmem
      simp [ensureDNSRecords] at hmem
  | ok existing =>
    by_cases hb :
        (ensureBatches (buildExistingMap existing) ipv4 ipv6 records).1 =
          [] ∧
        (ensureBatches (buildExistingMap existing) ipv4 ipv6 records).2 =
          []
    · have hcalls :
          ensureDNSRecords zoneID (.ok existing) batchResult records ipv4
            ipv6 = (.ok (), [.listRecords zoneID]) := by
        simp only [ensureDNSRecords]
        rw [if_pos hb]
      refine ⟨?_, ?_, ?_, ?_⟩
      · rw [hcalls]
        simp [List.countP, List.countP.go, ProviderCall.isBatchWrite]
      · intro c hc
        rw [hcalls] at hc
        simp only [List.mem_singleton] at hc
        subst hc
        rfl
      · intro existing' heq hempty
        exact hcalls
      · intro zid posts puts hmem
        rw [hcalls] at hmem
        simp at hmem
    · have hcalls :
          (ensureDNSRecords zoneID (.ok existing) batchResult records ipv4
            ipv6).2 =
          [.listRecords zoneID,
            .batchWrite zoneID
              (if (ensureBatches (buildExistingMap existing) ipv4 ipv6
                  records).1 = [] then []
                else prepareBatchCreate ipv4 ipv6
                  (ensureBatches (buildExistingMap existing) ipv4 ipv6
                    records).1)
              (if (ensureBatches (buildExistingMap existing) ipv4 ipv6
                  records).2 = [] then []
                else prepareBatchUpdate ipv4 ipv6
                  (ensureBatches (buildExistingMap existing) ipv4 ipv6
                    records).2)] := by
        simp only [ensureDNSRecords]
        rw [if_neg hb]
        cases batchResult <;> rfl
      refine ⟨?_, ?_, ?_, ?_⟩
      · rw [hcalls]
        simp [List.countP, List.countP.go, ProviderCall.isBatchWrite]
      · intro c hc
        rw [hcalls] at hc
        rcases List.mem_cons.mp hc with rfl | hc
        · rfl
        · rcases List.mem_singleton.mp hc with rfl
          rfl
      · intro existing' heq hempty
        obtain rfl : existing = existing' := by injection heq
        rw [hempty] at hb
        exact absurd ⟨rfl, rfl⟩ hb
      · intro zid posts puts hmem
        rw [hcalls] at hmem
        rcases List.mem_cons.mp hmem with hcon | hmem
        · cases hcon
        · rcases List.mem_singleton.mp hmem with heq
          injection heq with h1 h2 h3
          subst h2
          subst h3
          constructor
          · intro p hp
            split at hp
            · cases hp
            · exact hposts _ p hp
          · intro q hq
            split at hq
            · cases hq
            · exact hputs _ q hq

/-- Witness for `ensure_single_batch_no_delete`: an empty desired list
against an empty provider state returns success with the listing as the
only call. -/
theorem ensure_single_batch_no_delete_witness :
    ensureDNSRecords "z1" (.ok []) (.ok ()) [] "1.1.1.1" "" =
      (.ok (), [.listRecords "z1"]) :=
  (ensure_single_batch_no_delete "z1" (.ok []) (.ok ()) [] "1.1.1.1"
    "").2.2.1 [] rfl rfl

/-- C6: zone resolution fails with the not-found error naming the zone
exactly when the provider's zone list is empty, and otherwise returns the
first zone's ID; `getZoneID` answers a cache hit without consulting the
provider, and a cache miss stores a successfully resolved ID. -/
theorem getZoneID_cache_spec :
    (∀ (zoneName : String) (zs : List Zone),
      getZoneIDByName zoneName (.ok zs) =
          .error ("zone " ++ zoneName ++ " not found") ↔ zs = []) ∧
    (∀ (zoneName : String) (z : Zone) (rest : List Zone),
      getZoneIDByName zoneName (.ok (z :: rest)) = .ok z.id) ∧
    (∀ (cache : List (String × String)) (zoneName zid : String)
        (resolveResult : Except String String),
      cacheFind cache zoneName = some zid →
      getZoneID cache zoneName resolveResult = (.ok zid, cache, false)) ∧
    (∀ (cache : List (String × String)) (zoneName zid : String),
      cacheFind cache zoneName = none →
      getZoneID cache zoneName (.ok zid) =
          (.ok zid, cache ++ [(zoneName, zid)], true) ∧
        cacheFind (cache ++ [(zoneName, zid)]) zoneName = some zid) := by
  refine ⟨?_, ?_, ?_, ?_⟩
  · intro zoneName zs
    cases zs <;> simp [getZoneIDByName]
  · intro zoneName z rest
    rfl
  · intro cache zoneName zid resolveResult h
    simp [getZoneID, h]
  · intro cache zoneName zid h
    refine ⟨by simp [getZoneID, h], ?_⟩
    simp [cacheFind, List.reverse_append]

/-- Witness for `getZoneID_cache_spec`: an empty zone listing yields the
not-found error; a one-entry cache answers a hit without the resolver;
an empty cache stores the freshly resolved ID. -/
theorem getZoneID_cache_spec_witness :
    (getZoneIDByName "nosuchzone.com" (.ok []) =
        .error ("zone " ++ "nosuchzone.com" ++ " not found") ↔
      ([] : List Zone) = []) ∧
    getZoneID [("example.com", "z1")] "example.com" (.error "boom") =
      (.ok "z1", [("example.com", "z1")], false) ∧
    getZoneID [] "example.com" (.ok "z9") =
        (.ok "z9", [("example.com", "z9")], true) ∧
      cacheFind [("example.com", "z9")] "example.com" = some "z9" :=
  ⟨getZoneID_cache_spec.1 "nosuchzone.com" [],
    getZoneID_cache_spec.2.2.1 [("example.com", "z1")] "example.com" "z1"
      (.error "boom") rfl,
    getZoneID_cache_spec.2.2.2 [] "example.com" "z9" rfl⟩

/-- Invariant of the sweep loop: every domain context is attempted (its
zone name is appended to the attempted list), and the `lastErr`
accumulator always equals the last entry of the error log. -/
theorem updateAllAux_spec (ipv4 ipv6 : String) (ctxs : List DomainCtx) :
    ∀ (cache : List (String × String)) (lastErr : Option String)
      (errors attempted : List String),
      (updateAllAux ipv4 ipv6 ctxs cache lastErr errors
          attempted).attempted =
        attempted ++ ctxs.map (fun c => c.dom.zoneName) ∧
      (lastErr = errors.getLast? →
        (updateAllAux ipv4 ipv6 ctxs cache lastErr errors
            attempted).lastErr =
          (updateAllAux ipv4 ipv6 ctxs cache lastErr errors
            attempted).errors.getLast?) := by
  induction ctxs with
  | nil =>
    intro cache lastErr errors attempted
    exact ⟨by simp [updateAllAux], fun h => by simpa [updateAllAux] using h⟩
  | cons c rest ih =>
    intro cache lastErr errors attempted
    simp only [updateAllAux]
    split
    · constructor
      · rw [(ih _ _ _ _).1]
        simp
      · intro h
        refine (ih _ _ _ _).2 ?_
        simp [List.getLast?_concat]
    · split
      · constructor
        · rw [(ih _ _ _ _).1]
          simp
        · intro h
          refine (ih _ _ _ _).2 ?_
          simp [List.getLast?_concat]
      · constructor
        · rw [(ih _ _ _ _).1]
          simp
        · intro h
          exact (ih _ _ _ _).2 h

/-- C7: a multi-domain sweep (`updateAllDNSRecords` and the identical
loop of `verifyDNSRecords`) attempts every configured domain even when
some fail, logs each error, and returns exactly the last error
encountered (none when every domain succeeded). -/
theorem updateAll_best_effort (ipv4 ipv6 : String) (ctxs : List DomainCtx)
    (cache : List (String × String)) :
    (updateAllDNSRecords ipv4 ipv6 ctxs cache).attempted =
      ctxs.map (fun c => c.dom.zoneName) ∧
    (updateAllDNSRecords ipv4 ipv6 ctxs cache).lastErr =
      (updateAllDNSRecords ipv4 ipv6 ctxs cache).errors.getLast? ∧
    (verifyDNSRecords ipv4 ipv6 ctxs cache).attempted =
      ctxs.map (fun c => c.dom.zoneName) ∧
    (verifyDNSRecords ipv4 ipv6 ctxs cache).lastErr =
      (verifyDNSRecords ipv4 ipv6 ctxs cache).errors.getLast? := by
  obtain ⟨h1, h2⟩ := updateAllAux_spec ipv4 ipv6 ctxs cache none [] []
  exact ⟨by simpa [updateAllDNSRecords] using h1,
    by simpa [updateAllDNSRecords] using h2 rfl,
    by simpa [verifyDNSRecords] using h1,
    by simpa [verifyDNSRecords] using h2 rfl⟩

/-- C8: `checkAndUpdateIP` never clears a stored IP on fetch failure:
the stored value for a family survives unless a non-empty freshly fetched
value replaces it; the per-family changed flag is set exactly when the
newly fetched value is non-empty and differs from the stored one; and
when a change fires reconciliation, the IP state reconciliation reads is
the freshly stored one. -/
theorem checkAndUpdateIP_spec (supportsIPv6 : Bool) (st : IPState)
    (fetch4 fetch6 : Except String String) :
    (∀ e, fetch4 = .error e →
      (checkAndUpdateIP supportsIPv6 st fetch4 fetch6).state.ipv4 =
        st.ipv4) ∧
    (∀ e, fetch6 = .error e →
      (checkAndUpdateIP supportsIPv6 st fetch4 fetch6).state.ipv6 =
        st.ipv6) ∧
    ((checkAndUpdateIP supportsIPv6 st fetch4 fetch6).state.ipv4 =
        st.ipv4 ∨
      ((checkAndUpdateIP supportsIPv6 st fetch4 fetch6).state.ipv4 =
          fetchValue fetch4 ∧ fetchValue fetch4 ≠ "")) ∧
    ((checkAndUpdateIP supportsIPv6 st fetch4 fetch6).state.ipv6 =
        st.ipv6 ∨
      ((checkAndUpdateIP supportsIPv6 st fetch4 fetch6).state.ipv6 =
          fetchValue fetch6 ∧ fetchValue fetch6 ≠ "" ∧
        supportsIPv6 = true)) ∧
    ((checkAndUpdateIP supportsIPv6 st fetch4 fetch6).ipv4Changed = true ↔
      (fetchValue fetch4 ≠ "" ∧ fetchValue fetch4 ≠ st.ipv4)) ∧
    ((checkAndUpdateIP supportsIPv6 st fetch4 fetch6).ipv6Changed = true ↔
      ((if supportsIPv6 then fetchValue fetch6 else "") ≠ "" ∧
        (if supportsIPv6 then fetchValue fetch6 else "") ≠ st.ipv6)) ∧
    ((checkAndUpdateIP supportsIPv6 st fetch4 fetch6).ipv4Changed = true →
      (checkAndUpdateIP supportsIPv6 st fetch4 fetch6).state.ipv4 =
        fetchValue fetch4) ∧
    ((checkAndUpdateIP supportsIPv6 st fetch4 fetch6).ipv6Changed = true →
      (checkAndUpdateIP supportsIPv6 st fetch4 fetch6).state.ipv6 =
        fetchValue fetch6) ∧
    ((checkAndUpdateIP supportsIPv6 st fetch4 fetch6).reconcileWith =
        none ↔
      ((checkAndUpdateIP supportsIPv6 st fetch4 fetch6).ipv4Changed =
          false ∧
        (checkAndUpdateIP supportsIPv6 st fetch4 fetch6).ipv6Changed =
          false)) ∧
    (∀ s, (checkAndUpdateIP supportsIPv6 st fetch4 fetch6).reconcileWith =
        some s →
      s = (checkAndUpdateIP supportsIPv6 st fetch4 fetch6).state) := by
  refine ⟨?_, ?_, ?_, ?_, ?_, ?_, ?_, ?_,
    checkAndUpdateIP_reconcileWith_none supportsIPv6 st fetch4 fetch6, ?_⟩
    <;> simp only [checkAndUpdateIP_eq]
  · intro e he
    have h0 : fetchValue fetch4 = "" := by rw [he]; rfl
    simp [h0]
  · intro e he
    have h0 : fetchValue fetch6 = "" := by rw [he]; rfl
    cases supportsIPv6 <;> simp [h0]
  · by_cases h4 : fetchValue fetch4 ≠ st.ipv4 ∧ fetchValue fetch4 ≠ ""
    · exact Or.inr ⟨by simp [h4], h4.2⟩
    · exact Or.inl (by simp [h4])
  · cases supportsIPv6 with
    | false => exact Or.inl (by simp)
    | true =>
      by_cases h6 : fetchValue fetch6 ≠ st.ipv6 ∧ fetchValue fetch6 ≠ ""
      · refine Or.inr ⟨?_, h6.2, rfl⟩
        simp only [if_true]
        simp [h6]
      · exact Or.inl (by simp [h6])
  · simp only [decide_eq_true_eq]
    tauto
  · simp only [decide_eq_true_eq]
    tauto
  · simp only [decide_eq_true_eq]
    intro h4
    simp [h4]
  · cases supportsIPv6 with
    | false => simp
    | true =>
      simp only [decide_eq_true_eq, if_true]
      intro h6
      simp [h6]
  · intro s hs
    by_cases hor : (fetchValue fetch4 ≠ st.ipv4 ∧ fetchValue fetch4 ≠ "")
        ∨ ((if supportsIPv6 then fetchValue fetch6 else "") ≠ st.ipv6 ∧
          (if supportsIPv6 then fetchValue fetch6 else "") ≠ "")
    · rw [if_pos hor] at hs
      injection hs with hs
      simp [← hs]
    · rw [if_neg hor] at hs
      cases hs

/-- Witness for `checkAndUpdateIP_spec`: a failed IPv4 fetch leaves the
stored IPv4 in place while a fresh IPv6 value is flagged as changed. -/
theorem checkAndUpdateIP_spec_witness :
    (checkAndUpdateIP true (IPState.mk "1.1.1.1" "abcd::1")
        (.error "timeout") (.ok "abcd::2")).state.ipv4 =
      (IPState.mk "1.1.1.1" "abcd::1").ipv4 ∧
    ((checkAndUpdateIP true (IPState.mk "1.1.1.1" "abcd::1")
        (.error "timeout") (.ok "abcd::2")).ipv6Changed = true ↔
      ((if true then fetchValue (.ok "abcd::2") else "") ≠ "" ∧
        (if true then fetchValue (.ok "abcd::2") else "") ≠
          (IPState.mk "1.1.1.1" "abcd::1").ipv6)) :=
  ⟨(checkAndUpdateIP_spec true (IPState.mk "1.1.1.1" "abcd::1")
      (.error "timeout") (.ok "abcd::2")).1 "timeout" rfl,
    (checkAndUpdateIP_spec true (IPState.mk "1.1.1.1" "abcd::1")
      (.error "timeout") (.ok "abcd::2")).2.2.2.2.2.1⟩

/-- C9: a refresh tick that detects an IP change and fires reconciliation
moves the verify (sync) ticker deadline to a full period after the
present moment; a tick with no change leaves the deadline untouched; and
reconciliation fires exactly when a family changed. -/
theorem refreshTick_resets_sync (supportsIPv6 : Bool)
    (syncInterval now : Nat) (w : WatcherState)
    (fetch4 fetch6 : Except String String) :
    ((refreshTick supportsIPv6 syncInterval now w fetch4 fetch6).2 ≠
        none →
      (refreshTick supportsIPv6 syncInterval now w fetch4
          fetch6).1.syncDeadline = now + syncInterval) ∧
    ((refreshTick supportsIPv6 syncInterval now w fetch4 fetch6).2 =
        none →
      (refreshTick supportsIPv6 syncInterval now w fetch4
          fetch6).1.syncDeadline = w.syncDeadline) ∧
    ((refreshTick supportsIPv6 syncInterval now w fetch4 fetch6).2 ≠
        none ↔
      ((checkAndUpdateIP supportsIPv6 w.ipState fetch4
            fetch6).ipv4Changed = true ∨
        (checkAndUpdateIP supportsIPv6 w.ipState fetch4
          fetch6).ipv6Changed = true)) := by
  have hlink :
      (refreshTick supportsIPv6 syncInterval now w fetch4 fetch6).2 ≠
          none ↔
        ((checkAndUpdateIP supportsIPv6 w.ipState fetch4
              fetch6).ipv4Changed = true ∨
          (checkAndUpdateIP supportsIPv6 w.ipState fetch4
            fetch6).ipv6Changed = true) := by
    rw [refreshTick_snd, Ne, checkAndUpdateIP_reconcileWith_none]
    cases hb4 : (checkAndUpdateIP supportsIPv6 w.ipState fetch4
        fetch6).ipv4Changed <;>
      cases hb6 : (checkAndUpdateIP supportsIPv6 w.ipState fetch4
        fetch6).ipv6Changed <;>
      simp
  refine ⟨?_, ?_, hlink⟩
  · intro hne
    rw [refreshTick_deadline, if_pos (hlink.mp hne)]
  · intro hnone
    have hboth := (checkAndUpdateIP_reconcileWith_none supportsIPv6
      w.ipState fetch4 fetch6).mp
      (by rw [← refreshTick_snd supportsIPv6 syncInterval now w fetch4
          fetch6]
          exact hnone)
    rw [refreshTick_deadline, if_neg ?_]
    rintro (h | h)
    · rw [hboth.1] at h
      cases h
    · rw [hboth.2] at h
      cases h

/-- Witness for `refreshTick_resets_sync`: a tick at time 40 that sees a
new IPv4 address reschedules the sync ticker to fire at 40 + 600. -/
theorem refreshTick_resets_sync_witness :
    (refreshTick false 600 40
        (WatcherState.mk (IPState.mk "1.1.1.1" "") 100)
        (.ok "2.2.2.2") (.error "no v6")).2 ≠ none ∧
      (refreshTick false 600 40
        (WatcherState.mk (IPState.mk "1.1.1.1" "") 100)
        (.ok "2.2.2.2") (.error "no v6")).1.syncDeadline = 40 + 600 :=
  ⟨by decide,
    (refreshTick_resets_sync false 600 40
      (WatcherState.mk (IPState.mk "1.1.1.1" "") 100)
      (.ok "2.2.2.2") (.error "no v6")).1 (by decide)⟩

/-- C10: `fetchIP` never returns an empty string with a nil error: a
successful result is always a non-empty (trimmed) address. -/
theorem fetchIP_ok_nonempty (o : HTTPOutcome) (s : String)
    (h : fetchIP o = .ok s) : s ≠ "" := by
  cases o with
  | reqError e => simp [fetchIP] at h
  | doError e => simp [fetchIP] at h
  | response statusCode readResult =>
    simp only [fetchIP] at h
    split at h
    · simp at h
    · cases readResult with
      | error e => simp at h
      | ok body =>
        simp only [] at h
        split at h
        · simp at h
        · rename_i hne
          obtain rfl : trimSpace body = s := by simpa using h
          exact hne

/-- Witness for `fetchIP_ok_nonempty` at a concrete 200 response whose
body carries surrounding whitespace. -/
theorem fetchIP_ok_nonempty_witness :
    fetchIP (.response 200 (.ok " 1.2.3.4\n")) = .ok "1.2.3.4" ∧
      ("1.2.3.4" : String) ≠ "" :=
  ⟨rfl, fetchIP_ok_nonempty (.response 200 (.ok " 1.2.3.4\n")) "1.2.3.4" rfl⟩

end IPWatcher
